import Mathlib

/-!
Verification development for the descriptor library (`src/index.ts`):
a shallow embedding of the descriptor parsing pipeline (checksum handling,
range isolation, key-expression resolution, miniscript solving, envelope
dispatch) together with theorems about its behaviour.

Strings are modelled as `List Char` internally (with `String` at the API
boundary), buffers as `List Nat` (one `Nat` per byte), and thrown JS
exceptions as `Except Err`.  External services consumed by the library
(elliptic-curve checks, BIP32, WIF decoding, the miniscript compiler and
satisfier, script encoding, address encoding) are passed in as an explicit
bundle of functions, mirroring how the source receives them as imported
modules or as the `ecc` argument of `DescriptorsFactory`.
-/

set_option maxRecDepth 100000

namespace Descriptors

/-! ### Basic character classes -/

/-- The apostrophe character `'` (the hardened-path marker). -/
def apostrophe : Char := Char.ofNat 39

/-- Embeds `['hH]` — hardened marker characters (`reHardened` in the source). -/
def isHardenedChar (c : Char) : Bool := c = apostrophe || c = 'h' || c = 'H'

def isDigitChar (c : Char) : Bool := 48 ≤ c.toNat && c.toNat ≤ 57

def isHexChar (c : Char) : Bool :=
  isDigitChar c || (97 ≤ c.toNat && c.toNat ≤ 102) || (65 ≤ c.toNat && c.toNat ≤ 70)

/-- Embeds `[1-9A-HJ-NP-Za-km-z]` — the base58 character class used by `reWIF`,
`reXpub` and `reXprv`. -/
def isBase58Char (c : Char) : Bool :=
  (49 ≤ c.toNat && c.toNat ≤ 57) ||   -- 1-9
  (65 ≤ c.toNat && c.toNat ≤ 72) ||   -- A-H
  (74 ≤ c.toNat && c.toNat ≤ 78) ||   -- J-N
  (80 ≤ c.toNat && c.toNat ≤ 90) ||   -- P-Z
  (97 ≤ c.toNat && c.toNat ≤ 107) ||  -- a-k
  (109 ≤ c.toNat && c.toNat ≤ 122)    -- m-z

/-- Embeds `[A-Za-z0-9_]` — a regex word character (for `\b` boundaries). -/
def isWordChar (c : Char) : Bool :=
  isDigitChar c || (65 ≤ c.toNat && c.toNat ≤ 90) || (97 ≤ c.toNat && c.toNat ≤ 122) || c = '_'

/-- JS whitespace as relevant to `\s` in the source's asm cleanup. -/
def isWsChar (c : Char) : Bool := c = ' ' || c = '\t' || c = '\n' || c = '\r'

/-- Count of leading characters satisfying `p`. -/
def countWhile (p : Char → Bool) : List Char → Nat
  | [] => 0
  | c :: cs => if p c then countWhile p cs + 1 else 0

/-- First index of `c`, if present. -/
def indexOfChar (c : Char) : List Char → Option Nat
  | [] => none
  | x :: t => if x = c then some 0 else (indexOfChar c t).map (· + 1)

def digitVal (c : Char) : Nat := c.toNat - 48

def natOfDigits (l : List Char) : Nat := l.foldl (fun acc c => 10 * acc + digitVal c) 0

def hexVal (c : Char) : Nat :=
  if isDigitChar c then c.toNat - 48
  else if 97 ≤ c.toNat && c.toNat ≤ 102 then c.toNat - 87
  else if 65 ≤ c.toNat && c.toNat ≤ 70 then c.toNat - 55
  else 0

/-- Embeds `Buffer.from(hex, 'hex')`: decode pairs of hex digits to bytes, stopping
at the first invalid pair (Buffer truncates at invalid input). -/
def hexDecodePairs : List Char → List Nat
  | c1 :: c2 :: rest =>
      if isHexChar c1 && isHexChar c2 then (16 * hexVal c1 + hexVal c2) :: hexDecodePairs rest
      else []
  | _ => []

def digitChar (n : Nat) : Char := Char.ofNat (48 + n)

def hexCharLower (n : Nat) : Char := if n < 10 then Char.ofNat (48 + n) else Char.ofNat (87 + n)

/-- Embeds `buffer.toString('hex')`: lowercase hex rendering of bytes. -/
def bytesToHex (l : List Nat) : List Char :=
  l.foldr (fun b acc => hexCharLower (b / 16 % 16) :: hexCharLower (b % 16) :: acc) []

/-- Decimal digits of a natural number (most significant first). -/
def natDigitsAux : Nat → Nat → List Char
  | 0, _ => []
  | fuel + 1, n => if n < 10 then [digitChar n] else natDigitsAux fuel (n / 10) ++ [digitChar (n % 10)]

def natDecimal (n : Nat) : List Char := natDigitsAux (n + 1) n

/-- Embeds `i.toString()` for a JS integer. -/
def intDecimal (i : Int) : List Char :=
  if i < 0 then '-' :: natDecimal (-i).toNat else natDecimal i.toNat

/-! ### Checksum engine

`DescriptorChecksum` and `CHECKSUM_CHARSET` live in `./checksum`, which is
not part of the sources provided under `src/`.  Modelled from the spec:
section 4.1 describes an 8-symbol checksum over a 31+1-symbol charset using
a GF polynomial state over the descriptor's characters, referring the
implementer to the published descriptor-checksum specification (BIP 380);
the definitions below follow that published algorithm.  `DescriptorChecksum`
returns the empty string when some character is outside the input charset. -/

def CHECKSUM_CHARSET : String := "qpzry9x8gf2tvdw0s3jn54khce6mua7l"

def INPUT_CHARSET : String :=
  "0123456789()[],\x27/*abcdefgh@:$%\x7b\x7dIJKLMNOPQRSTUVWXYZ&+-.;<=>?!^_|~ijklmnopqrstuvwxyzABCDEFGH\x60#\x22\x5c "

def polyMod (c : Nat) (val : Nat) : Nat :=
  let c0 := c >>> 35
  let c := ((c &&& 0x7ffffffff) <<< 5) ^^^ val
  let c := if c0 &&& 1 ≠ 0 then c ^^^ 0xf5dee51989 else c
  let c := if c0 &&& 2 ≠ 0 then c ^^^ 0xa9fdca3312 else c
  let c := if c0 &&& 4 ≠ 0 then c ^^^ 0x1bab10e32d else c
  let c := if c0 &&& 8 ≠ 0 then c ^^^ 0x3706b1677a else c
  let c := if c0 &&& 16 ≠ 0 then c ^^^ 0x644d626ffd else c
  c

def checksumStep (st : Nat × Nat × Nat) (pos : Nat) : Nat × Nat × Nat :=
  let c := polyMod st.1 (pos % 32)
  let cls := st.2.1 * 3 + pos / 32
  if st.2.2 + 1 = 3 then (polyMod c cls, 0, 0) else (c, cls, st.2.2 + 1)

/-- Iterate the polynomial over the expression; `none` when a character is
not in the input charset. -/
def descriptorChecksumCore (l : List Char) : Option Nat :=
  (l.foldl (fun acc ch => acc.bind fun st => (indexOfChar ch INPUT_CHARSET.data).map (checksumStep st))
    (some (1, 0, 0))).map fun st =>
    let c := if st.2.2 > 0 then polyMod st.1 st.2.1 else st.1
    let c := (List.range 8).foldl (fun c _ => polyMod c 0) c
    c ^^^ 1

def checksumCharAt (n : Nat) : Char := CHECKSUM_CHARSET.data.getD n 'q'

def DescriptorChecksumL (l : List Char) : List Char :=
  match descriptorChecksumCore l with
  | none => []
  | some c => (List.range 8).map fun j => checksumCharAt ((c >>> (5 * (7 - j))) % 32)

/-- Embeds `Descriptor.checksum` / `DescriptorChecksum` at the `String` level. -/
def DescriptorChecksum (s : String) : String := String.mk (DescriptorChecksumL s.data)

/-! ### Errors and the index argument -/

/-- The `index` constructor argument as a JS number: either an integer value
or some non-integer (fractional, `NaN`, `undefined` — anything for which
`Number.isInteger` is `false`). -/
inductive JSIndex where
  | int : Int → JSIndex
  | notInt : JSIndex
deriving DecidableEq, Repr

/-- Embeds `Number.isInteger(index) && !(index < 0)` — the validity test of `isolate`. -/
def JSIndex.isValid : JSIndex → Bool
  | .int i => decide (0 ≤ i)
  | .notInt => false

/-- Embeds `index.toString()`; only ever invoked on a valid (non-negative integer)
index in the source, so the `notInt` case is unreachable there. -/
def JSIndex.render : JSIndex → List Char
  | .int i => intDecimal i
  | .notInt => "NaN".data

/-- The distinct `throw new Error(...)` sites of the source, with the data
interpolated into each message as payload. -/
inductive Err where
  | noChecksum (expression : String)             -- "descriptor ... has not checksum"
  | invalidChecksum (expression : String)        -- "invalid descriptor checksum for ..."
  | invalidIndex (index : JSIndex)               -- "invalid index ..."
  | expectedKeyExpression (keyExpression : String)
  | invalidPubKey                                -- "invalid pubkey"
  | couldNotGetPubKey (keyExpression : String)
  | xpubNotMatched
  | xprvNotMatched
  | pathNotExtracted
  | pathElementOverflow                          -- "BIP 32 path element overflow"
  | invalidDerivationPath (path : String)
  | externalThrow (which : String)               -- an exception thrown inside an external service
  | duplicateKeys (miniscript : String)          -- "... contains duplicate public keys"
  | notSane (bareMiniscript : String)            -- "Miniscript ... is not sane"
  | unresolvable (miniscript : String)           -- "unresolvable miniscript ..."
  | invalidKeyMap (key : String)
  | couldNotDecompile                            -- "cound not decompile ..."
  | invalidAddress (address : String)
  | invalidExpression (expression : String)
  | keyExpressionNotExtracted                    -- "keyExpression could not me extracted"
  | couldNotGetMiniscript (isolatedExpression : String)
  | miniscriptInP2SH                             -- "Miniscript expressions can only be used in wsh"
  | scriptTooLarge (size : Nat)                  -- wsh variant, limit 3600
  | p2shScriptTooLarge (size : Nat)              -- sh variant, limit 520
  | tooManyOps (count : Nat)                     -- limit 201
  | couldNotParse (expression : String)
  | noAddress                                    -- getAddress: "could extract an address ..."
  | noOutput                                     -- getScriptPubKey: "could extract output.script ..."
deriving DecidableEq, Repr

/-! ### Range isolator (`isolate`) -/

/-- The match of `(#[CHECKSUM_CHARSET]{8})$`: splits off a trailing
checksum token when the last nine characters are `#` followed by eight
charset symbols.  Returns the leading part and the eight symbols. -/
def checksumSplit (l : List Char) : Option (List Char × List Char) :=
  if l.length < 9 then none
  else
    match l.drop (l.length - 9) with
    | '#' :: cs => if cs.all (fun c => c ∈ CHECKSUM_CHARSET.data) then some (l.take (l.length - 9), cs) else none
    | _ => none

/-- Embeds `replaceAll` for a single-character pattern (`'*'` substitution). -/
def replaceAllChar (l : List Char) (c : Char) (rep : List Char) : List Char :=
  l.foldr (fun x acc => if x = c then rep ++ acc else x :: acc) []

/-- Second half of `isolate`: particularize a (checksum-free) expression for
`index` when it contains wildcards. -/
def isolateWildcards (iso : List Char) (index : JSIndex) : Except Err String :=
  if 0 < iso.count '*' then
    if !index.isValid then .error (.invalidIndex index)
    else .ok (String.mk (replaceAllChar iso '*' index.render))
  else .ok (String.mk iso)

/-- Embeds `isolate({expression, checksumRequired, index})`: verify and strip a
trailing checksum (if present; fail if absent but required), then replace
every `*` with `index` in lockstep. -/
def isolate (expression : String) (checksumRequired : Bool) (index : JSIndex) : Except Err String :=
  match checksumSplit expression.data with
  | none =>
      if checksumRequired then .error (.noChecksum expression)
      else isolateWildcards expression.data index
  | some (bare, cs) =>
      if cs ≠ DescriptorChecksumL bare then .error (.invalidChecksum expression)
      else isolateWildcards bare index

/-! ### Key-expression grammar

The regex suite (`reLevel`, `rePath`, `reOrigin`, `rePubKey`, `reWIF`,
`reXpub`/`reXprv`, `reKeyExp`) is embedded as functions computing, for a
given suffix of the input, the list of lengths a match starting there can
have, ordered by the JS backtracking engine's preference (greedy
quantifiers longest-first, alternatives left-to-right, optional groups
present-first).  The head of the list is the match the engine returns when
nothing constrains what follows; membership of the full length gives
anchored (`^...$`) matching. -/

/-- Embeds `reLevel = \d+(['hH])?` — candidate match lengths, preferred first. -/
def levelLens (l : List Char) : List Nat :=
  let d := countWhile isDigitChar l
  if d = 0 then []
  else
    (match l.drop d with
      | c :: _ => if isHardenedChar c then [d + 1] else []
      | [] => []) ++ (List.range d).map (fun k => d - k)

/-- Embeds `reRangeLevel = \*(['hH])?`. -/
def rangeLens (l : List Char) : List Nat :=
  match l with
  | '*' :: rest =>
      (match rest with
        | c :: _ => if isHardenedChar c then [2, 1] else [1]
        | [] => [1])
  | _ => []

/-- Embeds `(reRangeLevel|reLevel)` — the final element of `rePath`. -/
def finalLens (l : List Char) : List Nat := rangeLens l ++ levelLens l

/-- Embeds `rePathComponent = \d+(['hH])?\/` — its parse is unique: the digit run
is terminated by the hardener or slash. -/
def compLen (l : List Char) : Option Nat :=
  let d := countWhile isDigitChar l
  if d = 0 then none
  else
    match l.drop d with
    | '/' :: _ => some (d + 1)
    | c :: '/' :: _ => if isHardenedChar c then some (d + 2) else none
    | _ => none

/-- Embeds `(rePathComponent)*(reRangeLevel|reLevel)` — more components preferred. -/
def pathBodyLens : Nat → List Char → List Nat
  | 0, _ => []
  | fuel + 1, l =>
      (match compLen l with
        | some c => (pathBodyLens fuel (l.drop c)).map (· + c)
        | none => []) ++ finalLens l

/-- Embeds `rePath = \/(rePathComponent)*(reRangeLevel|reLevel)`. -/
def pathLens : List Char → List Nat
  | '/' :: rest => (pathBodyLens (rest.length + 1) rest).map (· + 1)
  | _ => []

/-- Embeds `(rePathComponent)*(reLevel)` — origin paths admit no wildcard. -/
def originPathBodyLens : Nat → List Char → List Nat
  | 0, _ => []
  | fuel + 1, l =>
      (match compLen l with
        | some c => (originPathBodyLens fuel (l.drop c)).map (· + c)
        | none => []) ++ levelLens l

/-- Embeds `reOriginPath = \/(rePathComponent)*(reLevel)`. -/
def originPathLens : List Char → List Nat
  | '/' :: rest => (originPathBodyLens (rest.length + 1) rest).map (· + 1)
  | _ => []

/-- Embeds `reOrigin = \[[0-9a-fA-F]{8}(reOriginPath)?\]` — its match length is
unique because the closing `]` pins the end. -/
def originLen (l : List Char) : Option Nat :=
  match l with
  | '[' :: rest =>
      if (rest.take 8).length = 8 && (rest.take 8).all isHexChar then
        let after := rest.drop 8
        match ((originPathLens after).filter (fun L => (after.drop L).head? = some ']')).head? with
        | some L => some (9 + L + 1)
        | none =>
            match after with
            | ']' :: _ => some 10
            | _ => none
      else none
  | _ => none

/-- Embeds `rePubKey = ((02|03)hex{64})|(04hex{128})` — at most one length fits. -/
def pubKeyLens (l : List Char) : List Nat :=
  match l with
  | '0' :: c :: rest =>
      (if (c = '2' || c = '3') && (rest.take 64).length = 64 && (rest.take 64).all isHexChar
        then [66] else []) ++
      (if c = '4' && (rest.take 128).length = 128 && (rest.take 128).all isHexChar
        then [130] else [])
  | _ => []

/-- Embeds `reWIF = [5KLc9][base58]{50,51}` — greedy prefers 51 trailing chars. -/
def wifLens (l : List Char) : List Nat :=
  match l with
  | c :: rest =>
      if c = '5' || c = 'K' || c = 'L' || c = 'c' || c = '9' then
        let n := countWhile isBase58Char rest
        if 51 ≤ n then [52, 51] else if n = 50 then [51] else []
      else []
  | [] => []

/-- Embeds `[xXtT]pub[base58]{79,108}` (resp. `prv`) — greedy longest-first. -/
def extKeyLens (mid : List Char) (l : List Char) : List Nat :=
  match l with
  | c :: rest =>
      if (c = 'x' || c = 'X' || c = 't' || c = 'T') && mid.isPrefixOf rest then
        let n := countWhile isBase58Char (rest.drop 3)
        if 79 ≤ n then (List.range (min n 108 - 79 + 1)).map (fun k => 4 + (min n 108 - k))
        else []
      else []
  | [] => []

/-- Embeds `reXpubKey = (reXpub)(rePath)?` (resp. xprv) — path-present preferred. -/
def extKeyWithPathLens (mid : List Char) (l : List Char) : List Nat :=
  (extKeyLens mid l).flatMap fun x => ((pathLens (l.drop x)).map (· + x)) ++ [x]

/-- Embeds `reActualKey = (reXpubKey|reXprvKey|rePubKey|reWIF)`. -/
def actualKeyLens (l : List Char) : List Nat :=
  extKeyWithPathLens "pub".data l ++ extKeyWithPathLens "prv".data l ++ pubKeyLens l ++ wifLens l

/-- Embeds `reKeyExp = (reOrigin)?(reActualKey)` — origin-present preferred, with
fallback to no origin when no actual key follows the origin. -/
def keyExpLens (l : List Char) : List Nat :=
  match originLen l with
  | some o => ((actualKeyLens (l.drop o)).map (· + o)) ++ actualKeyLens l
  | none => actualKeyLens l

/-- The match `reKeyExp` returns when it starts here with nothing after. -/
def greedyKeyExpAt (l : List Char) : Option Nat := (keyExpLens l).head?

/-- Anchored (`^...$`) membership for `reKeyExp`. -/
def keyExpMemberL (l : List Char) : Bool := (keyExpLens l).contains l.length

def pubKeyFull (l : List Char) : Bool := (pubKeyLens l).contains l.length
def wifFull (l : List Char) : Bool := (wifLens l).contains l.length
def xpubKeyFull (l : List Char) : Bool := (extKeyWithPathLens "pub".data l).contains l.length
def xprvKeyFull (l : List Char) : Bool := (extKeyWithPathLens "prv".data l).contains l.length

/-- Leftmost match: scan positions left to right, returning the position
and length of the first match of the pattern whose at-position matcher is
`f`. -/
def scanFirst (f : List Char → Option Nat) : List Char → Option (Nat × Nat)
  | [] => (f []).map (fun n => (0, n))
  | c :: t =>
      match f (c :: t) with
      | some n => some (0, n)
      | none => (scanFirst f t).map (fun p => (p.1 + 1, p.2))

/-- Embeds `s.match(re)?.[0]` for an unanchored, non-global regex. -/
def firstMatchOf (f : List Char → Option Nat) (l : List Char) : Option (List Char) :=
  (scanFirst f l).map (fun p => (l.drop p.1).take p.2)

/-- Embeds `keyExpression.match(reKeyExp)?.[0]`. -/
def firstKeyExpMatch (l : List Char) : Option (List Char) := firstMatchOf greedyKeyExpAt l

def firstKeyExpMatchStr (s : String) : Option String := (firstKeyExpMatch s.data).map String.mk

/-- Embeds `keyExpression.replace(RegExp(String.raw`^(origin)?`), '')`. -/
def stripOrigin (l : List Char) : List Char :=
  match originLen l with
  | some o => l.drop o
  | none => l

/-! ### External services -/

/-- A BIP32 node as consumed by the core: a public key and a `derivePath`
method (`none` models a thrown exception). -/
inductive BipNode where
  | mk : List Nat → (String → Option BipNode) → BipNode

def BipNode.publicKey : BipNode → List Nat
  | .mk pk _ => pk

def BipNode.deriveFn : BipNode → String → Option BipNode
  | .mk _ d => d

structure CompiledMs where
  asm : String
  issane : Bool

structure SatEntry where
  asm : String

/-- An entry of `bscript.decompile`: an opcode number or a push buffer. -/
inductive ScriptElem where
  | op : Nat → ScriptElem
  | push : List Nat → ScriptElem
deriving DecidableEq, Repr

inductive Network where
  | bitcoin | testnet | regtest
deriving DecidableEq, Repr

/-- The bundle of external services the core consumes (spec section 6):
elliptic curve, ECPair/WIF, BIP32, the miniscript compiler and satisfier,
script asm/binary codecs, address decoding, hashing and the bitcoinjs
payment encodings.  `Option` results model thrown exceptions. -/
structure Externals where
  isPoint : List Nat → Bool
  fromWIF : String → Network → Option (List Nat)
  bip32FromBase58 : String → Network → Option BipNode
  compileMs : String → CompiledMs
  satisfyMs : String → List String → Option (List SatEntry)
  fromASM : String → Option (List Nat)
  decompile : List Nat → Option (List ScriptElem)
  toOutputScript : String → Network → Option (List Nat)
  hash160 : List Nat → List Nat
  p2pkOutput : List Nat → List Nat
  p2pkhAddress : List Nat → Network → String
  p2pkhOutput : List Nat → List Nat
  p2wpkhAddress : List Nat → Network → String
  p2wpkhOutput : List Nat → List Nat
  p2shAddress : List Nat → Network → String
  p2shOutput : List Nat → List Nat
  p2wshAddress : List Nat → Network → String
  p2wshOutput : List Nat → List Nat

/-! ### Derivation paths (`derivePath`) -/

/-- Embeds `Number(s)` on the strings produced by the path normalization: `some`
of the value for (possibly empty) digit strings (`Number('') = 0`), `none`
(not an integer) otherwise.  JS `Number` also accepts syntaxes (hex,
exponent, signs, decimals points, whitespace) that no normalized path
element exhibits; those are modelled as non-integers here. -/
def jsDecimalNumber (l : List Char) : Option Nat :=
  if l.all isDigitChar then some (natOfDigits l) else none

/-- Embeds `s.split(sep)` for a one-character separator. -/
def splitChar (sep : Char) : List Char → List (List Char)
  | [] => [[]]
  | c :: t =>
      if c = sep then [] :: splitChar sep t
      else
        match splitChar sep t with
        | h :: r => (c :: h) :: r
        | [] => [[c]]

/-- Embeds `path.replaceAll('H', "'").replaceAll('h', "'").slice(1)`. -/
def parsedPathOf (path : String) : List Char :=
  (path.data.map (fun c => if c = 'H' || c = 'h' then apostrophe else c)).drop 1

def pathElements (path : String) : List (List Char) := splitChar '/' (parsedPathOf path)

/-- The per-element test of the `derivePath` loop: after dropping a
trailing hardener apostrophe, the element must be an integer `< 0x80000000`. -/
def badPathElement (el : List Char) : Bool :=
  let unhardened := if el.getLast? = some apostrophe then el.dropLast else el
  match jsDecimalNumber unhardened with
  | none => true
  | some v => decide (0x80000000 ≤ v)

/-- Embeds `derivePath(node, path)`: normalize the path, bounds-check every
element, then delegate to the external BIP32 node. -/
def derivePath (node : BipNode) (path : String) : Except Err BipNode :=
  let parsedPath := parsedPathOf path
  if (splitChar '/' parsedPath).any badPathElement then .error .pathElementOverflow
  else
    match node.deriveFn (String.mk parsedPath) with
    | some n => .ok n
    | none => .error (.externalThrow "derivePath")

/-! ### Key expression resolution (`keyExpression2PubKey`) -/

/-- The xpub/xprv arm of `keyExpression2PubKey`: extract the extended key
(first `reXpub`/`reXprv` match) and the optional path (first `rePath`
match), decode with the external BIP32 factory, derive when a path is
present, and return the public key. -/
def resolveExtKey (ext : Externals) (mid : List Char) (actualKey : List Char) (network : Network) :
    Except Err (List Nat) :=
  match firstMatchOf (fun l => (extKeyLens mid l).head?) actualKey with
  | none => .error (if mid = "pub".data then .xpubNotMatched else .xprvNotMatched)
  | some xKey =>
      match firstMatchOf (fun l => (pathLens l).head?) actualKey with
      | none =>
          match ext.bip32FromBase58 (String.mk xKey) network with
          | some node => .ok node.publicKey
          | none => .error (.externalThrow "fromBase58")
      | some path =>
          match ext.bip32FromBase58 (String.mk xKey) network with
          | some node => (derivePath node (String.mk path)).map BipNode.publicKey
          | none => .error (.externalThrow "fromBase58")

/-- Embeds `keyExpression2PubKey({keyExpression, network, isSegwit})`: validate
that the first `reKeyExp` match is the whole string, strip the origin, then
dispatch on the actual key form (raw pubkey, WIF, xpub, xprv). -/
def keyExpression2PubKey (ext : Externals) (keyExpression : String) (network : Network)
    (isSegwit : Bool) : Except Err (List Nat) :=
  match firstKeyExpMatch keyExpression.data with
  | none => .error (.expectedKeyExpression keyExpression)
  | some m =>
      if m ≠ keyExpression.data then .error (.expectedKeyExpression keyExpression)
      else
        let actualKey := stripOrigin keyExpression.data
        if pubKeyFull actualKey then
          let pubkey := hexDecodePairs actualKey
          if !ext.isPoint pubkey || (isSegwit && pubkey.length != 33) ||
              !(pubkey.length == 33 || pubkey.length == 65) then
            .error .invalidPubKey
          else .ok pubkey
        else if wifFull actualKey then
          match ext.fromWIF (String.mk actualKey) network with
          | some pk => .ok pk
          | none => .error (.externalThrow "fromWIF")
        else if xpubKeyFull actualKey then resolveExtKey ext "pub".data actualKey network
        else if xprvKeyFull actualKey then resolveExtKey ext "prv".data actualKey network
        else .error (.couldNotGetPubKey keyExpression)

/-- The static `Descriptor.keyExpression2PubKey`, with its optional
arguments defaulting to `networks.bitcoin` and `isSegwit = true` when the
caller omits them. -/
def staticKeyExpression2PubKey (ext : Externals) (keyExpression : String)
    (networkOpt : Option Network) (isSegwitOpt : Option Bool) : Except Err (List Nat) :=
  keyExpression2PubKey ext keyExpression (networkOpt.getD .bitcoin) (isSegwitOpt.getD true)

/-! ### Miniscript solving (`solveMiniscript`) -/

/-- Embeds `s.replaceAll(pat, rep)` for a non-empty string pattern: left-to-right,
non-overlapping.  Fueled structural recursion; the fuel bounds the number
of steps, each of which consumes at least one character. -/
def replaceAllSubAux : Nat → List Char → List Char → List Char → List Char
  | 0, l, _, _ => l
  | fuel + 1, l, pat, rep =>
      if pat ≠ [] && pat.isPrefixOf l then rep ++ replaceAllSubAux fuel (l.drop pat.length) pat rep
      else
        match l with
        | [] => []
        | c :: t => c :: replaceAllSubAux fuel t pat rep

def replaceAllSub (l pat rep : List Char) : List Char := replaceAllSubAux (l.length + 1) l pat rep

/-- Embeds `s.trim()`. -/
def trimBoth (l : List Char) : List Char :=
  ((l.dropWhile isWsChar).reverse.dropWhile isWsChar).reverse

/-- Embeds `.replace(/\s+/g, ' ')`. -/
def collapseWsAux : Nat → List Char → List Char
  | 0, l => l
  | _ + 1, [] => []
  | fuel + 1, c :: t =>
      if isWsChar c then ' ' :: collapseWsAux fuel (t.dropWhile isWsChar)
      else c :: collapseWsAux fuel t

def collapseWs (l : List Char) : List Char := collapseWsAux l.length l

/-- Modelled from the spec: `numberEncodeAsm` lives in
`./numberEncodeAsm`, which is not among the sources under `src/`.  Spec
section 4.5 step 5 describes it: encode a decimal literal as a minimal
CScriptNum byte string in hex — empty for 0, little-endian magnitude with
a zero byte appended when the top bit is set (the literals arising here
are non-negative). -/
def scriptNumBytesAux : Nat → Nat → List Nat
  | 0, _ => []
  | fuel + 1, n => if n = 0 then [] else n % 256 :: scriptNumBytesAux fuel (n / 256)

def scriptNumBytes (n : Nat) : List Nat :=
  let le := scriptNumBytesAux (n + 1) n
  match le.getLast? with
  | none => []
  | some b => if 0x80 ≤ b then le ++ [0] else le

def numberEncodeAsm (n : Nat) : List Char := bytesToHex (scriptNumBytes n)

/-- Embeds `.replace(/(?<![<])\b\d+\b(?![>])/g, numberEncodeAsm)`: replace every
maximal digit run that sits at word boundaries, is not preceded by `<`
and not followed by `>`. -/
def encodeNumbersAux : Nat → Option Char → List Char → List Char
  | 0, _, l => l
  | _ + 1, _, [] => []
  | fuel + 1, prev, c :: t =>
      if isDigitChar c &&
          (match prev with | none => true | some p => !isWordChar p && p ≠ '<') then
        let run := c :: t.takeWhile isDigitChar
        let rest := t.dropWhile isDigitChar
        let okAfter := match rest.head? with | none => true | some a => !isWordChar a && a ≠ '>'
        let prev := some (run.getLast?.getD c)
        if okAfter then numberEncodeAsm (natOfDigits run) ++ encodeNumbersAux fuel prev rest
        else run ++ encodeNumbersAux fuel prev rest
      else c :: encodeNumbersAux fuel (some c) t

def encodeNumbers (l : List Char) : List Char := encodeNumbersAux l.length none l

/-- Embeds `.replace(/[<>]/g, '')`. -/
def stripAngles (l : List Char) : List Char := l.filter (fun c => c ≠ '<' && c ≠ '>')

/-- Embeds `new Set(xs).size`. -/
def distinctCount (l : List (List Char)) : Nat :=
  (l.foldl (fun seen x => if seen.contains x then seen else x :: seen) []).length

/-- The global `miniscript.replace(RegExp(reKeyExp, 'g'), cb)` of
`solveMiniscript`: scan left to right; at each match, resolve the key
expression to a pubkey, substitute the placeholder `@i`, and record
`keyMap[@i] = hex(pubkey)`; a resolution failure propagates as the thrown
exception.  Returns the placeholder-substituted miniscript and the ordered
key map. -/
def scanKeysAux (ext : Externals) (network : Network) (isSegwit : Bool) :
    Nat → List Char → Nat → Except Err (List Char × List (List Char × List Char))
  | 0, l, _ => .ok (l, [])
  | _ + 1, [], _ => .ok ([], [])
  | fuel + 1, c :: t, count =>
      match greedyKeyExpAt (c :: t) with
      | some (n + 1) =>
          match keyExpression2PubKey ext (String.mk ((c :: t).take (n + 1))) network isSegwit with
          | .error e => .error e
          | .ok pk =>
              match scanKeysAux ext network isSegwit fuel ((c :: t).drop (n + 1)) (count + 1) with
              | .error e => .error e
              | .ok (bareRest, kmRest) =>
                  .ok (('@' :: natDecimal count) ++ bareRest,
                    ('@' :: natDecimal count, bytesToHex pk) :: kmRest)
      | _ =>
          match scanKeysAux ext network isSegwit fuel t count with
          | .error e => .error e
          | .ok (bare, km) => .ok (c :: bare, km)

def scanKeys (ext : Externals) (network : Network) (isSegwit : Bool) (miniscript : String) :
    Except Err (List Char × List (List Char × List Char)) :=
  scanKeysAux ext network isSegwit miniscript.data.length miniscript.data 0

/-- The reduce substituting `<@i>` and `<HASH160(@i)>` in the compiled
locking asm. -/
def substLockAsm (ext : Externals) : List (List Char × List Char) → List Char → Except Err (List Char)
  | [], asm => .ok asm
  | (key, pubKey) :: rest, asm =>
      if pubKey = [] then .error (.invalidKeyMap (String.mk key))
      else
        let asm := replaceAllSub asm ('<' :: key ++ ['>']) ('<' :: pubKey ++ ['>'])
        let asm := replaceAllSub asm ("<HASH160(".data ++ key ++ ")>".data)
          ('<' :: bytesToHex (ext.hash160 (hexDecodePairs pubKey)) ++ ['>'])
        substLockAsm ext rest asm

/-- The reduce substituting `<@i>` and `<sig(@i)>` in the satisfaction asm. -/
def substSatAsm : List (List Char × List Char) → List Char → Except Err (List Char)
  | [], asm => .ok asm
  | (key, pubKey) :: rest, asm =>
      if pubKey = [] then .error (.invalidKeyMap (String.mk key))
      else
        let asm := replaceAllSub asm ('<' :: key ++ ['>']) ('<' :: pubKey ++ ['>'])
        let asm := replaceAllSub asm ("<sig(".data ++ key ++ ")>".data)
          ("<sig(".data ++ pubKey ++ ")>".data)
        substSatAsm rest asm

/-- Embeds `solveMiniscript({miniscript, isSegwit, unknowns, network})`. -/
def solveMiniscript (ext : Externals) (miniscript : String) (isSegwit : Bool)
    (unknowns : List String) (network : Network) : Except Err (List Nat × String) :=
  match scanKeys ext network isSegwit miniscript with
  | .error e => .error e
  | .ok (bareM, keyMap) =>
      if distinctCount (keyMap.map (·.2)) ≠ (keyMap.map (·.2)).length then
        .error (.duplicateKeys miniscript)
      else
        let compiled := ext.compileMs (String.mk bareM)
        if compiled.issane ≠ true then .error (.notSane (String.mk bareM))
        else
          match substLockAsm ext keyMap compiled.asm.data with
          | .error e => .error e
          | .ok asm =>
              let parsedAsm := stripAngles (encodeNumbers (collapseWs (trimBoth asm)))
              match ext.satisfyMs (String.mk bareM) unknowns with
              | none => .error (.unresolvable miniscript)
              | some [] => .error (.unresolvable miniscript)
              | some (s0 :: _) =>
                  match substSatAsm keyMap s0.asm.data with
                  | .error e => .error e
                  | .ok satAsm =>
                      match ext.fromASM (String.mk parsedAsm) with
                      | some script => .ok (script, String.mk satAsm)
                      | none => .error (.externalThrow "fromASM")

/-- Embeds `countNonPushOnlyOPs`: decompile and count opcodes strictly greater
than `OP_16 = 0x60` (push buffers compare false in JS). -/
def countNonPushOnlyOPs (ext : Externals) (script : List Nat) : Except Err Nat :=
  match ext.decompile script with
  | none => .error .couldNotDecompile
  | some l => .ok (l.filter (fun e => match e with | .op n => decide (0x60 < n) | .push _ => false)).length

/-! ### Payments

Modelled from the spec: `p2pk`, `p2pkh`, `p2wpkh`, `p2sh`, `p2wsh` are
bitcoinjs-lib services (spec sections 3 and 6).  The payment table of
section 3 fixes which fields each populates; the concrete
address/script encodings stay abstract in `Externals`. -/

structure Payment where
  address : Option String := none
  output : Option (List Nat) := none
  redeem : Option (List Nat) := none
  witness : Option (List Nat) := none
deriving DecidableEq, Repr

def p2pkPayment (ext : Externals) (pubkey : List Nat) (_network : Network) : Payment :=
  { output := some (ext.p2pkOutput pubkey) }

def p2pkhPayment (ext : Externals) (pubkey : List Nat) (network : Network) : Payment :=
  { address := some (ext.p2pkhAddress pubkey network), output := some (ext.p2pkhOutput pubkey) }

def p2wpkhPayment (ext : Externals) (pubkey : List Nat) (network : Network) : Payment :=
  { address := some (ext.p2wpkhAddress pubkey network), output := some (ext.p2wpkhOutput pubkey) }

def p2wshPayment (ext : Externals) (script : List Nat) (network : Network) : Payment :=
  { address := some (ext.p2wshAddress script network), output := some (ext.p2wshOutput script),
    witness := some script }

/-- Embeds `p2sh({redeem, network})`: hash the redeem payment's output script;
the witness data of the redeem payment propagates outward. -/
def p2shWrap (ext : Externals) (inner : Payment) (network : Network) : Payment :=
  { address := some (ext.p2shAddress (inner.output.getD []) network),
    output := some (ext.p2shOutput (inner.output.getD [])),
    redeem := inner.output,
    witness := inner.witness }

/-! ### Envelope dispatch and the `Descriptor` constructor -/

/-- Which constructor branch realized the descriptor (ghost data: the
source stores only the payment and the satisfaction asm). -/
inductive DescKind where
  | addr | pk | pkh | shWpkh | wpkh | shWshMs | shMs | wshMs
deriving DecidableEq, Repr

structure Descriptor where
  kind : DescKind
  payment : Payment
  satAsm : Option String := none
  /-- ghost: the compiled miniscript locking script, for miniscript envelopes -/
  msScript : Option (List Nat) := none
deriving DecidableEq, Repr

/-- Matching of an anchored envelope `^pre…body…')'{n}(#checksum)?$` with
extraction of the body.  The optional checksum tail is forced: a string
can end in a valid checksum token or in `)`, never both (neither `#` nor
`)` is a checksum symbol), so the split into prefix, body, closing
parentheses and tail is unique — which also makes the lazy `.*?` capture
of the miniscript/pk/addr bodies deterministic. -/
def envBodyGen (pre : List Char) (nClose : Nat) (l : List Char) : Option (List Char) :=
  if pre.isPrefixOf l then
    let rest := l.drop pre.length
    let tailLen := match checksumSplit l with | some _ => 9 | none => 0
    if tailLen + nClose ≤ rest.length &&
        (rest.drop (rest.length - tailLen - nClose)).take nClose = List.replicate nClose ')' then
      some (rest.take (rest.length - tailLen - nClose))
    else none
  else none

/-- Anchored envelope match whose body must be in the `reKeyExp` language
(`rePkhAnchored`, `reWpkhAnchored`, `reShWpkhAnchored`). -/
def envKeyExpMatches (pre : List Char) (nClose : Nat) (l : List Char) : Bool :=
  match envBodyGen pre nClose l with
  | some body => keyExpMemberL body
  | none => false

/-- Embeds `.search(/^(pk\(|pkh\(|wpkh\(|combo\(|multi\(|sortedmulti\(|multi_a\(|sortedmulti_a\()/) === 0`. -/
def msAllowedInSh (ms : List Char) : Bool :=
  ["pk(", "pkh(", "wpkh(", "combo(", "multi(", "sortedmulti(", "multi_a(", "sortedmulti_a("].any
    (fun p => p.data.isPrefixOf ms)

/-- The envelope the constructor's if/else chain selects, in source order:
`addr` (with a truthy captured address), `pk`, `pkh`, `sh(wpkh)`, `wpkh`,
`sh(wsh(ms))`, `sh(ms)`, `wsh(ms)`. -/
inductive EnvBranch where
  | addr (a : String)
  | pk
  | pkh
  | shWpkh
  | wpkh
  | shWshMs (ms : String)
  | shMs (ms : String)
  | wshMs (ms : String)
  | noMatch
deriving DecidableEq, Repr

def branchOf (l : List Char) : EnvBranch :=
  let addrBody := (envBodyGen "addr(".data 1 l).getD []
  if addrBody ≠ [] then .addr (String.mk addrBody)
  else if (envBodyGen "pk(".data 1 l).isSome then .pk
  else if envKeyExpMatches "pkh(".data 1 l then .pkh
  else if envKeyExpMatches "sh(wpkh(".data 2 l then .shWpkh
  else if envKeyExpMatches "wpkh(".data 1 l then .wpkh
  else
    match envBodyGen "sh(wsh(".data 2 l with
    | some m => .shWshMs (String.mk m)
    | none =>
        match envBodyGen "sh(".data 1 l with
        | some m => .shMs (String.mk m)
        | none =>
            match envBodyGen "wsh(".data 1 l with
            | some m => .wshMs (String.mk m)
            | none => .noMatch

/-- The constructor body after `isolate`: dispatch the isolated expression
to its envelope handler; `expression` (the original constructor argument)
appears only in error messages. -/
def realize (ext : Externals) (expression : String) (iso : String)
    (allowMiniscriptInP2SH : Bool) (unknowns : List String) (network : Network) :
    Except Err Descriptor :=
  let keyExpression := firstKeyExpMatchStr iso
  match branchOf iso.data with
  | .addr a =>
      match ext.toOutputScript a network with
      | none => .error (.invalidAddress a)
      | some _ => .ok { kind := .addr, payment := { address := some a } }
  | .pk =>
      if iso ≠ "pk(" ++ keyExpression.getD "undefined" ++ ")" then
        .error (.invalidExpression expression)
      else
        match keyExpression with
        | none => .error .keyExpressionNotExtracted
        | some ke =>
            (keyExpression2PubKey ext ke network false).map fun pubkey =>
              { kind := .pk, payment := p2pkPayment ext pubkey network }
  | .pkh =>
      if iso ≠ "pkh(" ++ keyExpression.getD "undefined" ++ ")" then
        .error (.invalidExpression expression)
      else
        match keyExpression with
        | none => .error .keyExpressionNotExtracted
        | some ke =>
            (keyExpression2PubKey ext ke network false).map fun pubkey =>
              { kind := .pkh, payment := p2pkhPayment ext pubkey network }
  | .shWpkh =>
      if iso ≠ "sh(wpkh(" ++ keyExpression.getD "undefined" ++ "))" then
        .error (.invalidExpression expression)
      else
        match keyExpression with
        | none => .error .keyExpressionNotExtracted
        | some ke =>
            (keyExpression2PubKey ext ke network true).map fun pubkey =>
              { kind := .shWpkh, payment := p2shWrap ext (p2wpkhPayment ext pubkey network) network }
  | .wpkh =>
      if iso ≠ "wpkh(" ++ keyExpression.getD "undefined" ++ ")" then
        .error (.invalidExpression expression)
      else
        match keyExpression with
        | none => .error .keyExpressionNotExtracted
        | some ke =>
            (keyExpression2PubKey ext ke network true).map fun pubkey =>
              { kind := .wpkh, payment := p2wpkhPayment ext pubkey network }
  | .shWshMs ms =>
      if ms = "" then .error (.couldNotGetMiniscript iso)
      else
        match solveMiniscript ext ms true unknowns network with
        | .error e => .error e
        | .ok (script, satAsm) =>
            if 3600 < script.length then .error (.scriptTooLarge script.length)
            else
              match countNonPushOnlyOPs ext script with
              | .error e => .error e
              | .ok nonPushOnlyOps =>
                  if 201 < nonPushOnlyOps then .error (.tooManyOps nonPushOnlyOps)
                  else .ok { kind := .shWshMs,
                             payment := p2shWrap ext (p2wshPayment ext script network) network,
                             satAsm := some satAsm, msScript := some script }
  | .shMs ms =>
      if ms = "" then .error (.couldNotGetMiniscript iso)
      else if !allowMiniscriptInP2SH && !msAllowedInSh ms.data then
        .error .miniscriptInP2SH
      else
        match solveMiniscript ext ms false unknowns network with
        | .error e => .error e
        | .ok (script, satAsm) =>
            if 520 < script.length then .error (.p2shScriptTooLarge script.length)
            else
              match countNonPushOnlyOPs ext script with
              | .error e => .error e
              | .ok nonPushOnlyOps =>
                  if 201 < nonPushOnlyOps then .error (.tooManyOps nonPushOnlyOps)
                  else .ok { kind := .shMs,
                             payment := p2shWrap ext { output := some script } network,
                             satAsm := some satAsm, msScript := some script }
  | .wshMs ms =>
      if ms = "" then .error (.couldNotGetMiniscript iso)
      else
        match solveMiniscript ext ms true unknowns network with
        | .error e => .error e
        | .ok (script, satAsm) =>
            if 3600 < script.length then .error (.scriptTooLarge script.length)
            else
              match countNonPushOnlyOPs ext script with
              | .error e => .error e
              | .ok nonPushOnlyOps =>
                  if 201 < nonPushOnlyOps then .error (.tooManyOps nonPushOnlyOps)
                  else .ok { kind := .wshMs,
                             payment := p2wshPayment ext script network,
                             satAsm := some satAsm, msScript := some script }
  | .noMatch => .error (.couldNotParse expression)

/-- Embeds `new Descriptor({expression, index, checksumRequired,
allowMiniscriptInP2SH, unknowns, network})`. -/
def construct (ext : Externals) (expression : String) (index : JSIndex)
    (checksumRequired allowMiniscriptInP2SH : Bool) (unknowns : List String)
    (network : Network) : Except Err Descriptor :=
  match isolate expression checksumRequired index with
  | .error e => .error e
  | .ok iso => realize ext expression iso allowMiniscriptInP2SH unknowns network

/-! ### Accessors -/

def Descriptor.getPayment (d : Descriptor) : Payment := d.payment

/-- Embeds `getAddress()`: throws when the payment has no (truthy) address. -/
def Descriptor.getAddress (d : Descriptor) : Except Err String :=
  match d.payment.address with
  | some a => if a.isEmpty then .error .noAddress else .ok a
  | none => .error .noAddress

/-- Embeds `getScriptPubKey()`: throws when the payment has no output script.
(A Buffer is always truthy in JS, so a present output never throws.) -/
def Descriptor.getScriptPubKey (d : Descriptor) : Except Err (List Nat) :=
  match d.payment.output with
  | some o => .ok o
  | none => .error .noOutput

/-! ## Concrete instantiations used by witnesses -/

/-- A demo BIP32 node whose every derivation yields a fixed child. -/
def demoNode2 : BipNode := .mk [8] (fun _ => none)

def demoNode : BipNode := .mk [7] (fun _ => some demoNode2)

/-- A concrete external-service bundle for evaluating the embedding on
closed inputs: the curve accepts every point, WIF/BIP32/address decoding
succeed with fixed data, the compiler echoes its input as (sane) asm, and
the payment encoders tag their argument. -/
def demoExt : Externals where
  isPoint := fun _ => true
  fromWIF := fun _ _ => some [9]
  bip32FromBase58 := fun _ _ => some demoNode
  compileMs := fun s => { asm := s, issane := true }
  satisfyMs := fun _ _ => some [{ asm := "sats" }]
  fromASM := fun _ => some [0, 1, 2]
  decompile := fun _ => some []
  toOutputScript := fun _ _ => some [0]
  hash160 := fun _ => [1]
  p2pkOutput := fun pk => 33 :: pk
  p2pkhAddress := fun _ _ => "pkhAddr"
  p2pkhOutput := fun pk => 25 :: pk
  p2wpkhAddress := fun _ _ => "wpkhAddr"
  p2wpkhOutput := fun pk => 22 :: pk
  p2shAddress := fun _ _ => "shAddr"
  p2shOutput := fun s => 23 :: s
  p2wshAddress := fun _ _ => "wshAddr"
  p2wshOutput := fun s => 34 :: s

/-! ## Helper lemmas -/

theorem indexOfChar_isSome_of_mem {c : Char} : ∀ {l : List Char}, c ∈ l → (indexOfChar c l).isSome
  | x :: t, h => by
      by_cases hx : x = c
      · simp [indexOfChar, hx]
      · have ht : c ∈ t := by
          rcases List.mem_cons.mp h with h1 | h2
          · exact absurd h1.symm hx
          · exact h2
        simpa [indexOfChar, hx] using indexOfChar_isSome_of_mem ht

theorem checksumCore_isSome {l : List Char} (h : ∀ c ∈ l, c ∈ INPUT_CHARSET.data) :
    (descriptorChecksumCore l).isSome := by
  have hgen : ∀ (l : List Char) (st : Nat × Nat × Nat), (∀ c ∈ l, c ∈ INPUT_CHARSET.data) →
      (l.foldl (fun acc ch => acc.bind fun st =>
        (indexOfChar ch INPUT_CHARSET.data).map (checksumStep st)) (some st)).isSome := by
    intro l
    induction l with
    | nil => intro st _; simp
    | cons c t ih =>
        intro st h
        have hc : c ∈ INPUT_CHARSET.data := h c (by simp)
        rcases Option.isSome_iff_exists.mp (indexOfChar_isSome_of_mem hc) with ⟨n, hn⟩
        simpa [List.foldl_cons, hn] using ih (checksumStep st n) (fun x hx => h x (by simp [hx]))
  unfold descriptorChecksumCore
  rcases Option.isSome_iff_exists.mp (hgen l (1, 0, 0) h) with ⟨st, hst⟩
  rw [hst]
  rfl

theorem checksumCharAt_mem (n : Nat) : checksumCharAt n ∈ CHECKSUM_CHARSET.data := by
  unfold checksumCharAt List.getD
  rcases h : CHECKSUM_CHARSET.data.get? n with _ | c
  · decide
  · simpa using List.get?_mem h

/-- On charset-clean input the checksum has eight symbols, all from the
checksum charset. -/
theorem DescriptorChecksumL_wellFormed {l : List Char} (h : ∀ c ∈ l, c ∈ INPUT_CHARSET.data) :
    (DescriptorChecksumL l).length = 8 ∧
      (DescriptorChecksumL l).all (· ∈ CHECKSUM_CHARSET.data) := by
  unfold DescriptorChecksumL
  rcases Option.isSome_iff_exists.mp (checksumCore_isSome h) with ⟨c, hc⟩
  rw [hc]
  constructor
  · simp
  · simp only [List.all_eq_true]
    intro x hx
    rcases List.mem_map.mp hx with ⟨j, _, hj⟩
    simpa [← hj] using checksumCharAt_mem _

theorem checksumSplit_append {e cs : List Char} (hlen : cs.length = 8)
    (hmem : cs.all (· ∈ CHECKSUM_CHARSET.data)) :
    checksumSplit (e ++ '#' :: cs) = some (e, cs) := by
  unfold checksumSplit
  have hL : (e ++ '#' :: cs).length = e.length + 9 := by simp [hlen]
  simp only [hL]
  have h9 : e.length + 9 - 9 = e.length := by omega
  rw [h9, if_neg (by omega), List.drop_left e ('#' :: cs), List.take_left e ('#' :: cs)]
  simp [hmem]

theorem checksumSplit_none_of_no_hash {l : List Char} (h : '#' ∉ l) : checksumSplit l = none := by
  unfold checksumSplit
  split
  · rfl
  · split
    · next heq =>
        exact absurd (List.drop_subset _ l (heq ▸ List.mem_cons_self '#' _)) h
    · rfl

/-- A successful `realize` does not depend on the original `expression`
argument, which feeds only error messages. -/
theorem realize_ok_irrel {ext : Externals} {iso : String} {allow : Bool} {u : List String}
    {net : Network} {d : Descriptor} (e e' : String)
    (h : realize ext e iso allow u net = .ok d) : realize ext e' iso allow u net = .ok d := by
  unfold realize at h ⊢
  cases hb : branchOf iso.data <;> simp only [hb] at h ⊢
  case addr a => exact h
  case pk =>
      split at h
      · exact Except.noConfusion h
      · next hcond => rw [if_neg hcond]; exact h
  case pkh =>
      split at h
      · exact Except.noConfusion h
      · next hcond => rw [if_neg hcond]; exact h
  case shWpkh =>
      split at h
      · exact Except.noConfusion h
      · next hcond => rw [if_neg hcond]; exact h
  case wpkh =>
      split at h
      · exact Except.noConfusion h
      · next hcond => rw [if_neg hcond]; exact h
  case shWshMs ms => exact h
  case shMs ms => exact h
  case wshMs ms => exact h
  case noMatch => exact Except.noConfusion h

/-- Isolation is the identity on expressions with no checksum token and no
wildcard. -/
theorem isolate_id (e : String) (index : JSIndex) (h1 : '#' ∉ e.data) (h2 : '*' ∉ e.data) :
    isolate e false index = .ok e := by
  unfold isolate
  rw [checksumSplit_none_of_no_hash h1]
  simp [isolateWildcards, List.count_eq_zero.mpr h2]

theorem mem_replaceAllChar {a : Char} {l : List Char} {c : Char} {rep : List Char} :
    a ∈ replaceAllChar l c rep → a ∈ rep ∨ (a ∈ l ∧ a ≠ c) := by
  induction l with
  | nil => intro h; exact absurd h (by simp [replaceAllChar])
  | cons x t ih =>
      intro h
      unfold replaceAllChar at h
      by_cases hx : x = c
      · rw [List.foldr_cons, if_pos hx] at h
        rcases List.mem_append.mp h with hrep | hrest
        · exact Or.inl hrep
        · rcases ih hrest with hrep | ⟨hmem, hne⟩
          · exact Or.inl hrep
          · exact Or.inr ⟨List.mem_cons_of_mem x hmem, hne⟩
      · rw [List.foldr_cons, if_neg hx] at h
        rcases List.mem_cons.mp h with rfl | hrest
        · exact Or.inr ⟨List.mem_cons_self a t, hx⟩
        · rcases ih hrest with hrep | ⟨hmem, hne⟩
          · exact Or.inl hrep
          · exact Or.inr ⟨List.mem_cons_of_mem x hmem, hne⟩

theorem mem_natDigitsAux {c : Char} :
    ∀ {fuel n : Nat}, c ∈ natDigitsAux fuel n → ∃ k, k < 10 ∧ c = digitChar k := by
  intro fuel
  induction fuel with
  | zero => intro n h; exact absurd h (by simp [natDigitsAux])
  | succ fuel ih =>
      intro n h
      unfold natDigitsAux at h
      by_cases hn : n < 10
      · rw [if_pos hn] at h
        rcases List.mem_singleton.mp h with rfl
        exact ⟨n, hn, rfl⟩
      · rw [if_neg hn] at h
        rcases List.mem_append.mp h with hrec | hlast
        · exact ih hrec
        · rcases List.mem_singleton.mp hlast with rfl
          exact ⟨n % 10, Nat.mod_lt _ (by omega), rfl⟩

theorem digitChar_toNat {k : Nat} (hk : k < 10) : (digitChar k).toNat = 48 + k := by
  interval_cases k <;> decide

theorem not_mem_intDecimal_of_code {c : Char} (i : Int) (hi : 0 ≤ i)
    (hc : c.toNat < 48 ∨ 57 < c.toNat) : c ∉ intDecimal i := by
  intro h
  rw [intDecimal, if_neg (by omega)] at h
  rcases mem_natDigitsAux h with ⟨k, hk, rfl⟩
  rw [digitChar_toNat hk] at hc
  omega

/-! ## The claims -/

/-- Evidence for claim C1.  The descriptor construction for `addr(A)`
(with an address that decodes, as witnessed by `toOutputScript` returning
a script) succeeds but stores only `{ address: A }`: the validated output
script is discarded, so `getScriptPubKey()` throws rather than returning
`toOutputScript(A, network)`; `getPayment`/`getAddress` still work.  This
contradicts the claim that `scriptPubKey = toOutputScript(A, network)` is
stored and that `getScriptPubKey` cannot fail on a constructed
descriptor. -/
theorem addr_scriptPubKey_lost :
    construct demoExt "addr(bc1demoaddr)" (.int 0) false false [] .bitcoin
      = .ok { kind := .addr, payment := { address := some "bc1demoaddr" } }
    ∧ demoExt.toOutputScript "bc1demoaddr" .bitcoin = some [0]
    ∧ Descriptor.getScriptPubKey { kind := .addr, payment := { address := some "bc1demoaddr" } }
      = .error .noOutput
    ∧ Descriptor.getAddress { kind := .addr, payment := { address := some "bc1demoaddr" } }
      = .ok "bc1demoaddr"
    ∧ Descriptor.getPayment { kind := .addr, payment := { address := some "bc1demoaddr" } }
      = { address := some "bc1demoaddr" } :=
  ⟨rfl, rfl, rfl, rfl, rfl⟩

/-- Claim C2: for a well-formed bare expression `e` (no checksum token, no
wildcard, charset-clean) whose construction succeeds, constructing from
`e + "#" + checksum(e)` succeeds with the same descriptor (same payment,
same satisfaction assembly). -/
theorem checksum_roundtrip (ext : Externals) (e : String) (index : JSIndex)
    (allowMiniscriptInP2SH : Bool) (unknowns : List String) (network : Network) (d : Descriptor)
    (hchars : ∀ c ∈ e.data, c ∈ INPUT_CHARSET.data)
    (hnohash : '#' ∉ e.data) (hnowild : '*' ∉ e.data)
    (hok : construct ext e index false allowMiniscriptInP2SH unknowns network = .ok d) :
    construct ext (e ++ "#" ++ DescriptorChecksum e) index false allowMiniscriptInP2SH unknowns
      network = .ok d := by
  obtain ⟨hlen8, hmem8⟩ := DescriptorChecksumL_wellFormed hchars
  have hdata : (e ++ "#" ++ DescriptorChecksum e).data = e.data ++ '#' :: DescriptorChecksumL e.data := by
    simp [DescriptorChecksum]
  have hreal : realize ext e e allowMiniscriptInP2SH unknowns network = .ok d := by
    unfold construct at hok
    rw [isolate_id e index hnohash hnowild] at hok
    exact hok
  have hiso2 : isolate (e ++ "#" ++ DescriptorChecksum e) false index = .ok e := by
    unfold isolate
    rw [hdata, checksumSplit_append hlen8 hmem8, if_neg (by simp)]
    simp [isolateWildcards, List.count_eq_zero.mpr hnowild]
  unfold construct
  rw [hiso2]
  exact realize_ok_irrel e _ hreal

theorem checksum_roundtrip_witness :
    construct demoExt ("addr(w)" ++ "#" ++ DescriptorChecksum "addr(w)") (.int 0) false false []
      .bitcoin = .ok { kind := .addr, payment := { address := some "w" } } :=
  checksum_roundtrip demoExt "addr(w)" (.int 0) false [] .bitcoin _ (by decide) (by decide)
    (by decide) rfl

/-- A concrete checksummed expression whose first checksum symbol has been
replaced by `b`, a character outside the checksum charset. -/
def corruptedChecksumExpr : String :=
  "addr(y)" ++ "#" ++ "b" ++ String.mk ((DescriptorChecksumL "addr(y)".data).drop 1)

/-- The same checksummed expression with its last checksum symbol replaced
by `)`, also outside the checksum charset. -/
def corruptedChecksumExpr2 : String :=
  "addr(y)" ++ "#" ++ String.mk ((DescriptorChecksumL "addr(y)".data).dropLast) ++ ")"

/-- Counterexample to claim C3 as stated: corrupting one checksum symbol
with a character *outside* the checksum charset never produces the
invalid-checksum error, because the trailing token no longer scans as a
checksum and the checksum comparison is skipped entirely.  What happens
instead depends on how the corrupted string parses as a whole: replacing
the first symbol with `b` leaves a string matching no envelope, giving the
could-not-parse error (or the missing-checksum error when a checksum is
required), while replacing the last symbol with `)` folds the checksum
remnant into the envelope's lazy body, so `addr(y)#c1..c7)` is dispatched
as `addr` with address `y)#c1..c7` — and construction even succeeds when
the address service accepts that string. -/
theorem checksum_corruption_counterexample :
    construct demoExt "addr(y)" (.int 0) false false [] .bitcoin
      = .ok { kind := .addr, payment := { address := some "y" } }
    ∧ (DescriptorChecksumL "addr(y)".data).length = 8
    ∧ (DescriptorChecksumL "addr(y)".data).head? ≠ some 'b'
    ∧ construct demoExt corruptedChecksumExpr (.int 0) false false [] .bitcoin
      = .error (.couldNotParse corruptedChecksumExpr)
    ∧ construct demoExt corruptedChecksumExpr (.int 0) true false [] .bitcoin
      = .error (.noChecksum corruptedChecksumExpr)
    ∧ Err.couldNotParse corruptedChecksumExpr ≠ Err.invalidChecksum corruptedChecksumExpr
    ∧ (DescriptorChecksumL "addr(y)".data).getLast? ≠ some ')'
    ∧ construct demoExt corruptedChecksumExpr2 (.int 0) false false [] .bitcoin
      = .ok (Descriptor.mk .addr
          (Payment.mk
            (some (String.mk ('y' :: ')' :: '#' :: (DescriptorChecksumL "addr(y)".data).dropLast)))
            none none none)
          none none) :=
  ⟨rfl, by decide, by decide, rfl, rfl, by decide, by decide, rfl⟩

/-- Amended claim C3: replacing checksum symbols so that the result is a
different eight-symbol string over the checksum charset makes construction
fail with the invalid-checksum error (for any single in-charset
replacement in particular). -/
theorem checksum_in_charset_corruption (ext : Externals) (e : String) (cs : List Char)
    (index : JSIndex) (checksumRequired allowMiniscriptInP2SH : Bool) (unknowns : List String)
    (network : Network) (hlen : cs.length = 8) (hmem : cs.all (· ∈ CHECKSUM_CHARSET.data))
    (hne : cs ≠ DescriptorChecksumL e.data) :
    construct ext (e ++ "#" ++ String.mk cs) index checksumRequired allowMiniscriptInP2SH
      unknowns network = .error (.invalidChecksum (e ++ "#" ++ String.mk cs)) := by
  unfold construct isolate
  have hdata : (e ++ "#" ++ String.mk cs).data = e.data ++ '#' :: cs := by simp
  rw [hdata, checksumSplit_append hlen hmem]
  simp [hne]

theorem checksum_in_charset_corruption_witness :
    construct demoExt ("x" ++ "#" ++ String.mk "qqqqqqqq".data) (.int 0) false false [] .bitcoin
      = .error (.invalidChecksum ("x" ++ "#" ++ String.mk "qqqqqqqq".data)) :=
  checksum_in_charset_corruption demoExt "x" "qqqqqqqq".data (.int 0) false false [] .bitcoin
    (by decide) (by decide) (by decide)

/-- A checksummed range descriptor and its literal `*`-to-`7`
substitution (which breaks the checksum). -/
def rangeChkExpr : String := "addr(*)" ++ "#" ++ DescriptorChecksum "addr(*)"

def rangeChkSubst : String := "addr(7)" ++ "#" ++ DescriptorChecksum "addr(*)"

/-- Counterexample to claim C4 as stated: for a range descriptor carrying
a checksum, constructing at index 7 succeeds, while constructing from the
expression obtained by textually replacing the `*` makes the (unchanged)
checksum invalid, so the two constructions differ. -/
theorem range_textual_substitution_counterexample :
    0 < rangeChkExpr.data.count '*'
    ∧ String.mk (replaceAllChar rangeChkExpr.data '*' (JSIndex.int 7).render) = rangeChkSubst
    ∧ construct demoExt rangeChkExpr (.int 7) false false [] .bitcoin
      = .ok { kind := .addr, payment := { address := some "7" } }
    ∧ construct demoExt rangeChkSubst (.int 7) false false [] .bitcoin
      = .error (.invalidChecksum rangeChkSubst)
    ∧ (Except.ok ({ kind := .addr, payment := { address := some "7" } } : Descriptor)
        ≠ (Except.error (Err.invalidChecksum rangeChkSubst) : Except Err Descriptor)) :=
  ⟨by decide, by decide, rfl, rfl, fun h => Except.noConfusion h⟩

/-- Amended claim C4: for a checksum-free range descriptor `R` with at
least one wildcard and a non-negative integer index `i`, a successful
construction at `(R, i)` produces the same descriptor as constructing from
the expression with every `*` textually replaced by `i` (with any index
argument, which is no longer inspected). -/
theorem range_substitution_lockstep (ext : Externals) (R : String) (i : Int) (index2 : JSIndex)
    (allowMiniscriptInP2SH : Bool) (unknowns : List String) (network : Network) (d : Descriptor)
    (hnohash : '#' ∉ R.data) (hwild : 0 < R.data.count '*') (hi : 0 ≤ i)
    (hok : construct ext R (.int i) false allowMiniscriptInP2SH unknowns network = .ok d) :
    construct ext (String.mk (replaceAllChar R.data '*' (intDecimal i))) index2 false
      allowMiniscriptInP2SH unknowns network = .ok d := by
  have hisoR : isolate R false (.int i)
      = .ok (String.mk (replaceAllChar R.data '*' (intDecimal i))) := by
    unfold isolate
    rw [checksumSplit_none_of_no_hash hnohash]
    unfold isolateWildcards
    rw [if_pos hwild]
    have hv : (JSIndex.int i).isValid = true := by simp [JSIndex.isValid, hi]
    rw [hv]
    rfl
  have hreal : realize ext R (String.mk (replaceAllChar R.data '*' (intDecimal i)))
      allowMiniscriptInP2SH unknowns network = .ok d := by
    unfold construct at hok
    rw [hisoR] at hok
    exact hok
  have hnohash2 : '#' ∉ replaceAllChar R.data '*' (intDecimal i) := by
    intro hmem
    rcases mem_replaceAllChar hmem with hrep | ⟨hl, _⟩
    · exact not_mem_intDecimal_of_code i hi (by decide) hrep
    · exact hnohash hl
  have hnowild2 : '*' ∉ replaceAllChar R.data '*' (intDecimal i) := by
    intro hmem
    rcases mem_replaceAllChar hmem with hrep | ⟨_, hne⟩
    · exact not_mem_intDecimal_of_code i hi (by decide) hrep
    · exact hne rfl
  unfold construct
  rw [isolate_id (String.mk (replaceAllChar R.data '*' (intDecimal i))) index2 hnohash2 hnowild2]
  exact realize_ok_irrel R _ hreal

theorem range_substitution_lockstep_witness :
    construct demoExt (String.mk (replaceAllChar "addr(*)".data '*' (intDecimal 7))) .notInt false
      false [] .bitcoin = .ok { kind := .addr, payment := { address := some "7" } } :=
  range_substitution_lockstep demoExt "addr(*)" 7 .notInt false [] .bitcoin _ (by decide)
    (by decide) (by decide) rfl

/-- The checksum-stripped view of an expression (what the wildcard count
of `isolate` is computed over). -/
def strippedOfChecksum (l : List Char) : List Char :=
  match checksumSplit l with
  | some p => p.1
  | none => l

/-- Claim C9: when the checksum-stripped expression contains no `*`, the
index argument is never inspected — isolation gives the same result for
any two indices (integer, negative, fractional or absent alike) and never
raises the invalid-index error. -/
theorem index_ignored_without_wildcard (expression : String) (checksumRequired : Bool)
    (i1 i2 : JSIndex) (h : (strippedOfChecksum expression.data).count '*' = 0) :
    isolate expression checksumRequired i1 = isolate expression checksumRequired i2
    ∧ isolate expression checksumRequired i1 ≠ .error (.invalidIndex i1) := by
  unfold strippedOfChecksum at h
  cases hsp : checksumSplit expression.data with
  | none =>
      simp only [hsp] at h
      cases checksumRequired with
      | true => exact ⟨by simp [isolate, hsp], by simp [isolate, hsp]⟩
      | false =>
          exact ⟨by simp [isolate, hsp, isolateWildcards, h],
            by simp [isolate, hsp, isolateWildcards, h]⟩
  | some p =>
      obtain ⟨bare, cs⟩ := p
      simp only [hsp] at h
      by_cases hcs : cs = DescriptorChecksumL bare
      · exact ⟨by simp [isolate, hsp, hcs, isolateWildcards, h],
          by simp [isolate, hsp, hcs, isolateWildcards, h]⟩
      · exact ⟨by simp [isolate, hsp, hcs, isolateWildcards],
          by simp [isolate, hsp, hcs, isolateWildcards]⟩

theorem index_ignored_without_wildcard_witness :
    isolate "pk(0)" false .notInt = isolate "pk(0)" false (.int (-5))
    ∧ isolate "pk(0)" false .notInt ≠ .error (.invalidIndex .notInt) :=
  index_ignored_without_wildcard "pk(0)" false .notInt (.int (-5)) (by decide)

/-- Recognizes the text of a raw uncompressed pubkey
(`reUncompressedPubKey`): `04` followed by 128 hex digits. -/
def isUncompressedHexKey (l : List Char) : Bool :=
  decide (l.take 2 = ['0', '4']) && decide (l.length = 130) && (l.drop 2).all isHexChar

/-- Recognizes the text of a raw compressed pubkey
(`reCompressedPubKey`): `02` or `03` followed by 64 hex digits. -/
def isCompressedHexKey (l : List Char) : Bool :=
  (decide (l.take 2 = ['0', '2']) || decide (l.take 2 = ['0', '3'])) && decide (l.length = 66)
    && (l.drop 2).all isHexChar

theorem uncompressed_structure {l : List Char} (h : isUncompressedHexKey l = true) :
    l = ['0', '4'] ++ l.drop 2 ∧ l.length = 130 ∧ (l.drop 2).all isHexChar = true := by
  unfold isUncompressedHexKey at h
  simp only [Bool.and_eq_true, decide_eq_true_eq] at h
  obtain ⟨⟨htake, hlen⟩, hhex⟩ := h
  refine ⟨?_, hlen, hhex⟩
  conv_lhs => rw [← List.take_append_drop 2 l]
  rw [htake]

theorem compressed_structure {l : List Char} (h : isCompressedHexKey l = true) :
    ∃ c, (c = '2' ∨ c = '3') ∧ l = ['0', c] ++ l.drop 2 ∧ l.length = 66
      ∧ (l.drop 2).all isHexChar = true := by
  unfold isCompressedHexKey at h
  simp only [Bool.and_eq_true, Bool.or_eq_true, decide_eq_true_eq] at h
  obtain ⟨⟨htake, hlen⟩, hhex⟩ := h
  have hsplit : ∀ pre, l.take 2 = pre → l = pre ++ l.drop 2 := by
    intro pre hpre
    conv_lhs => rw [← List.take_append_drop 2 l]
    rw [hpre]
  rcases htake with htake | htake
  · exact ⟨'2', Or.inl rfl, hsplit _ htake, hlen, hhex⟩
  · exact ⟨'3', Or.inr rfl, hsplit _ htake, hlen, hhex⟩

theorem all_take_of_all {p : Char → Bool} {l : List Char} (h : l.all p = true) (n : Nat) :
    (l.take n).all p = true :=
  List.all_eq_true.mpr fun c hc => List.all_eq_true.mp h c (List.take_subset n l hc)

theorem pubKeyLens_uncompressed {rest : List Char} (hlen : rest.length = 128)
    (hhex : rest.all isHexChar = true) : pubKeyLens (['0', '4'] ++ rest) = [130] := by
  have htake : rest.take 128 = rest := List.take_of_length_le (by omega)
  unfold pubKeyLens
  simp [htake, hlen, hhex]

theorem pubKeyLens_compressed {c : Char} {rest : List Char} (hc : c = '2' ∨ c = '3')
    (hlen : rest.length = 64) (hhex : rest.all isHexChar = true) :
    pubKeyLens (['0', c] ++ rest) = [66] := by
  have htake : rest.take 64 = rest := List.take_of_length_le (by omega)
  unfold pubKeyLens
  rcases hc with rfl | rfl <;> simp [htake, hlen, hhex]

theorem hexDecodePairs_length : ∀ {l : List Char}, l.all isHexChar = true →
    (hexDecodePairs l).length = l.length / 2
  | [], _ => by simp [hexDecodePairs]
  | [c], _ => by simp [hexDecodePairs]
  | c1 :: c2 :: rest, h => by
      simp only [List.all_cons, Bool.and_eq_true] at h
      obtain ⟨h1, h2, h3⟩ := h
      unfold hexDecodePairs
      rw [if_pos (by simp [h1, h2])]
      simp only [List.length_cons, hexDecodePairs_length h3]
      omega

theorem pubKeyFull_of_uncompressed {l : List Char} (h : isUncompressedHexKey l = true) :
    pubKeyFull l = true := by
  obtain ⟨hsplit, hlen, hhex⟩ := uncompressed_structure h
  have hdroplen : (l.drop 2).length = 128 := by simp [hlen]
  unfold pubKeyFull
  rw [hsplit, pubKeyLens_uncompressed hdroplen hhex]
  simp [hlen, hsplit.symm]

theorem pubKeyFull_of_compressed {l : List Char} (h : isCompressedHexKey l = true) :
    pubKeyFull l = true := by
  obtain ⟨c, hc, hsplit, hlen, hhex⟩ := compressed_structure h
  have hdroplen : (l.drop 2).length = 64 := by simp [hlen]
  unfold pubKeyFull
  rw [hsplit, pubKeyLens_compressed hc hdroplen hhex]
  simp [hlen, hsplit.symm]

theorem hexDecode_uncompressed_length {l : List Char} (h : isUncompressedHexKey l = true) :
    (hexDecodePairs l).length = 65 := by
  obtain ⟨hsplit, hlen, hhex⟩ := uncompressed_structure h
  have hall : l.all isHexChar = true := by
    rw [hsplit]
    simp only [List.all_append, Bool.and_eq_true]
    exact ⟨by decide, hhex⟩
  rw [hexDecodePairs_length hall, hlen]

theorem hexDecode_compressed_length {l : List Char} (h : isCompressedHexKey l = true) :
    (hexDecodePairs l).length = 33 := by
  obtain ⟨c, hc, hsplit, hlen, hhex⟩ := compressed_structure h
  have hall : l.all isHexChar = true := by
    rw [hsplit]
    simp only [List.all_append, Bool.and_eq_true]
    exact ⟨by rcases hc with rfl | rfl <;> decide, hhex⟩
  rw [hexDecodePairs_length hall, hlen]

/-- Core evaluation of `keyExpression2PubKey` on a raw pubkey whose full
form is accepted; the outcome is exactly the source's compressed-check. -/
theorem keyExp_rawPubKey_eval (ext : Externals) (ke : String) (network : Network) (isSegwit : Bool)
    (h1 : firstKeyExpMatch ke.data = some ke.data)
    (hfull : pubKeyFull (stripOrigin ke.data) = true) :
    keyExpression2PubKey ext ke network isSegwit =
      (if !ext.isPoint (hexDecodePairs (stripOrigin ke.data))
          || (isSegwit && (hexDecodePairs (stripOrigin ke.data)).length != 33)
          || !((hexDecodePairs (stripOrigin ke.data)).length == 33
              || (hexDecodePairs (stripOrigin ke.data)).length == 65) then
        .error .invalidPubKey
      else .ok (hexDecodePairs (stripOrigin ke.data))) := by
  unfold keyExpression2PubKey
  simp only [h1, ne_eq, not_true_eq_false, if_false, hfull, if_true]

/-- Claim C5: a key expression whose actual key is a raw uncompressed
(65-byte) pubkey accepted by `isPoint` fails `InvalidPubKey` in a SegWit
context and resolves in a non-SegWit context; a raw compressed (33-byte)
pubkey accepted by `isPoint` also resolves in a non-SegWit context. -/
theorem segwit_requires_compressed (ext : Externals) (network : Network) (ke1 ke2 : String)
    (h1 : firstKeyExpMatch ke1.data = some ke1.data)
    (h2 : isUncompressedHexKey (stripOrigin ke1.data) = true)
    (h3 : ext.isPoint (hexDecodePairs (stripOrigin ke1.data)) = true)
    (h4 : firstKeyExpMatch ke2.data = some ke2.data)
    (h5 : isCompressedHexKey (stripOrigin ke2.data) = true)
    (h6 : ext.isPoint (hexDecodePairs (stripOrigin ke2.data)) = true) :
    keyExpression2PubKey ext ke1 network true = .error .invalidPubKey
    ∧ keyExpression2PubKey ext ke1 network false = .ok (hexDecodePairs (stripOrigin ke1.data))
    ∧ (hexDecodePairs (stripOrigin ke1.data)).length = 65
    ∧ keyExpression2PubKey ext ke2 network false = .ok (hexDecodePairs (stripOrigin ke2.data))
    ∧ (hexDecodePairs (stripOrigin ke2.data)).length = 33 := by
  have hlen1 := hexDecode_uncompressed_length h2
  have hlen2 := hexDecode_compressed_length h5
  refine ⟨?_, ?_, hlen1, ?_, hlen2⟩
  · rw [keyExp_rawPubKey_eval ext ke1 network true h1 (pubKeyFull_of_uncompressed h2)]
    rw [if_pos (by simp [h3, hlen1])]
  · rw [keyExp_rawPubKey_eval ext ke1 network false h1 (pubKeyFull_of_uncompressed h2)]
    rw [if_neg (by simp [h3, hlen1])]
  · rw [keyExp_rawPubKey_eval ext ke2 network false h4 (pubKeyFull_of_compressed h5)]
    rw [if_neg (by simp [h6, hlen2])]

def uncompDemoKey : String := "04" ++ String.mk (List.replicate 128 'a')

def compDemoKey : String := "02" ++ String.mk (List.replicate 64 'b')

theorem segwit_requires_compressed_witness :
    keyExpression2PubKey demoExt uncompDemoKey .bitcoin true = .error .invalidPubKey
    ∧ keyExpression2PubKey demoExt uncompDemoKey .bitcoin false
      = .ok (hexDecodePairs (stripOrigin uncompDemoKey.data))
    ∧ (hexDecodePairs (stripOrigin uncompDemoKey.data)).length = 65
    ∧ keyExpression2PubKey demoExt compDemoKey .bitcoin false
      = .ok (hexDecodePairs (stripOrigin compDemoKey.data))
    ∧ (hexDecodePairs (stripOrigin compDemoKey.data)).length = 33 :=
  segwit_requires_compressed demoExt .bitcoin uncompDemoKey compDemoKey (by decide) (by decide)
    rfl (by decide) (by decide) rfl

/-- Claim C10: the static resolver defaults `isSegwit` to `true` when the
caller omits it, so a valid raw uncompressed pubkey fails `InvalidPubKey`
unless `isSegwit = false` is passed explicitly. -/
theorem static_resolver_defaults_to_segwit (ext : Externals) (ke : String)
    (networkOpt : Option Network)
    (h1 : firstKeyExpMatch ke.data = some ke.data)
    (h2 : isUncompressedHexKey (stripOrigin ke.data) = true)
    (h3 : ext.isPoint (hexDecodePairs (stripOrigin ke.data)) = true) :
    staticKeyExpression2PubKey ext ke networkOpt none = .error .invalidPubKey
    ∧ staticKeyExpression2PubKey ext ke networkOpt (some true) = .error .invalidPubKey
    ∧ staticKeyExpression2PubKey ext ke networkOpt (some false)
      = .ok (hexDecodePairs (stripOrigin ke.data)) := by
  have hlen1 := hexDecode_uncompressed_length h2
  have herr : keyExpression2PubKey ext ke (networkOpt.getD .bitcoin) true
      = .error .invalidPubKey := by
    rw [keyExp_rawPubKey_eval ext ke _ true h1 (pubKeyFull_of_uncompressed h2)]
    rw [if_pos (by simp [h3, hlen1])]
  have hokk : keyExpression2PubKey ext ke (networkOpt.getD .bitcoin) false
      = .ok (hexDecodePairs (stripOrigin ke.data)) := by
    rw [keyExp_rawPubKey_eval ext ke _ false h1 (pubKeyFull_of_uncompressed h2)]
    rw [if_neg (by simp [h3, hlen1])]
  exact ⟨herr, herr, hokk⟩

def uncompDemoKey2 : String := "04" ++ String.mk (List.replicate 128 'c')

theorem static_resolver_defaults_to_segwit_witness :
    staticKeyExpression2PubKey demoExt uncompDemoKey2 none none = .error .invalidPubKey
    ∧ staticKeyExpression2PubKey demoExt uncompDemoKey2 none (some true) = .error .invalidPubKey
    ∧ staticKeyExpression2PubKey demoExt uncompDemoKey2 none (some false)
      = .ok (hexDecodePairs (stripOrigin uncompDemoKey2.data)) :=
  static_resolver_defaults_to_segwit demoExt uncompDemoKey2 none (by decide) (by decide) rfl

/-- A normalized path element of the shape the claim describes: a
non-empty decimal integer, optionally suffixed by a hardener apostrophe. -/
def wellFormedPathElement (el : List Char) : Bool :=
  let unhardened := if el.getLast? = some apostrophe then el.dropLast else el
  !unhardened.isEmpty && unhardened.all isDigitChar

/-- The numeric value of a normalized path element (hardener dropped). -/
def pathElementValue (el : List Char) : Nat :=
  natOfDigits (if el.getLast? = some apostrophe then el.dropLast else el)

theorem badPathElement_eq {el : List Char} (h : wellFormedPathElement el = true) :
    badPathElement el = decide (0x80000000 ≤ pathElementValue el) := by
  unfold wellFormedPathElement at h
  simp only [Bool.and_eq_true] at h
  unfold badPathElement jsDecimalNumber pathElementValue
  simp [h.2]

/-- Claim C8: when the normalized elements of a derivation path are
decimal integers (optionally hardened), any element `≥ 2^31` makes
`derivePath` fail `PathElementOverflow`, while paths with every element
`< 2^31` are accepted and handed to the external BIP32 node. -/
theorem derivation_path_overflow (node1 : BipNode) (path1 : String)
    (node2 : BipNode) (path2 : String)
    (hwf1 : ∀ el ∈ pathElements path1, wellFormedPathElement el = true)
    (hbig : ∃ el ∈ pathElements path1, 0x80000000 ≤ pathElementValue el)
    (hwf2 : ∀ el ∈ pathElements path2, wellFormedPathElement el = true)
    (hsmall : ∀ el ∈ pathElements path2, pathElementValue el < 0x80000000) :
    derivePath node1 path1 = .error .pathElementOverflow
    ∧ derivePath node2 path2
      = (match node2.deriveFn (String.mk (parsedPathOf path2)) with
         | some n => .ok n
         | none => .error (.externalThrow "derivePath")) := by
  constructor
  · have hany : (splitChar '/' (parsedPathOf path1)).any badPathElement = true := by
      rcases hbig with ⟨el, hmem, hge⟩
      refine List.any_eq_true.mpr ⟨el, hmem, ?_⟩
      rw [badPathElement_eq (hwf1 el hmem)]
      exact decide_eq_true hge
    unfold derivePath
    simp only [hany, if_true]
  · have hany : (splitChar '/' (parsedPathOf path2)).any badPathElement = false := by
      refine List.any_eq_false.mpr fun el hmem => ?_
      rw [badPathElement_eq (hwf2 el hmem)]
      simpa using Nat.not_le.mpr (hsmall el hmem)
    unfold derivePath
    simp only [hany, Bool.false_eq_true, if_false]

theorem derivation_path_overflow_witness :
    derivePath demoNode "/2147483648" = .error .pathElementOverflow
    ∧ derivePath demoNode "/1/2h"
      = (match demoNode.deriveFn (String.mk (parsedPathOf "/1/2h")) with
         | some n => .ok n
         | none => .error (.externalThrow "derivePath")) :=
  derivation_path_overflow demoNode "/2147483648" demoNode "/1/2h" (by decide)
    ⟨"2147483648".data, by decide, by decide⟩ (by decide) (by decide)

/-- Changing the compiler and satisfier services does not affect key
resolution. -/
theorem keyExpression2PubKey_services_irrel (ext : Externals) (compileAlt : String → CompiledMs)
    (satisfyAlt : String → List String → Option (List SatEntry)) (ke : String) (network : Network)
    (isSegwit : Bool) :
    keyExpression2PubKey { ext with compileMs := compileAlt, satisfyMs := satisfyAlt } ke network
      isSegwit = keyExpression2PubKey ext ke network isSegwit := rfl

/-- Changing the compiler and satisfier services does not affect the key
scan of `solveMiniscript`. -/
theorem scanKeysAux_services_irrel (ext : Externals) (compileAlt : String → CompiledMs)
    (satisfyAlt : String → List String → Option (List SatEntry)) (network : Network)
    (isSegwit : Bool) :
    ∀ (fuel : Nat) (l : List Char) (count : Nat),
      scanKeysAux { ext with compileMs := compileAlt, satisfyMs := satisfyAlt } network isSegwit
        fuel l count = scanKeysAux ext network isSegwit fuel l count := by
  intro fuel
  induction fuel with
  | zero => intro l count; rfl
  | succ fuel ih =>
      intro l count
      cases l with
      | nil => rfl
      | cons ch t =>
          unfold scanKeysAux
          cases hg : greedyKeyExpAt (ch :: t) with
          | none => simp only [hg, ih]
          | some n =>
              cases n with
              | zero => simp only [hg, ih]
              | succ n => simp only [hg, ih, keyExpression2PubKey_services_irrel]

/-- Claim C6: when the key scan resolves two occurrences to the same
pubkey hex, `solveMiniscript` fails with the duplicate-keys error — for
every compiler and satisfier, since the check precedes both calls. -/
theorem duplicate_keys_rejected (ext : Externals) (miniscript : String) (isSegwit : Bool)
    (unknowns : List String) (network : Network) (bareM : List Char)
    (keyMap : List (List Char × List Char))
    (hscan : scanKeys ext network isSegwit miniscript = .ok (bareM, keyMap))
    (hdup : distinctCount (keyMap.map (·.2)) ≠ (keyMap.map (·.2)).length)
    (compileAlt : String → CompiledMs)
    (satisfyAlt : String → List String → Option (List SatEntry)) :
    solveMiniscript { ext with compileMs := compileAlt, satisfyMs := satisfyAlt } miniscript
      isSegwit unknowns network = .error (.duplicateKeys miniscript) := by
  have hscan2 : scanKeys { ext with compileMs := compileAlt, satisfyMs := satisfyAlt } network
      isSegwit miniscript = .ok (bareM, keyMap) := by
    unfold scanKeys at hscan ⊢
    rw [scanKeysAux_services_irrel]
    exact hscan
  unfold solveMiniscript
  rw [hscan2]
  simp only [if_pos hdup]

/-- The public key `0279be66...` twice, once behind an origin — two
distinct key expressions resolving to the same pubkey. -/
def demoPubHex : String := "0279be667ef9dcbbac55a06295ce870b07029bfcdb2dce28d959f2815b16f81798"

def dupDemoMs : String := "or_b(pk([00000000]" ++ demoPubHex ++ "),a:pk(" ++ demoPubHex ++ "))"

/-- An externals bundle whose miniscript compiler always reports insane
and whose satisfier always throws. -/
def brokenCompilerExt : Externals :=
  { demoExt with compileMs := fun _ => CompiledMs.mk "" false, satisfyMs := fun _ _ => none }

theorem duplicate_keys_rejected_witness :
    solveMiniscript brokenCompilerExt dupDemoMs true [] .bitcoin
      = .error (.duplicateKeys dupDemoMs) :=
  duplicate_keys_rejected demoExt dupDemoMs true [] .bitcoin "or_b(pk(@0),a:pk(@1))".data
    [("@0".data, demoPubHex.data), ("@1".data, demoPubHex.data)] rfl (by decide)
    (fun _ => CompiledMs.mk "" false) (fun _ _ => none)

/-- Every descriptor a successful `realize` produces satisfies the
resource limits: in the `sh(ms)` envelope the stored script is at most 520
bytes, in the `wsh(ms)` and `sh(wsh(ms))` envelopes at most 3600 bytes,
and in all of them the non-push opcode count is at most 201. -/
theorem realize_ok_limits {ext : Externals} {e iso : String} {allow : Bool} {u : List String}
    {net : Network} {d : Descriptor} (h : realize ext e iso allow u net = .ok d) :
    (d.kind = .shMs → ∃ s, d.msScript = some s ∧ s.length ≤ 520 ∧
      ∃ n, countNonPushOnlyOPs ext s = .ok n ∧ n ≤ 201)
    ∧ ((d.kind = .wshMs ∨ d.kind = .shWshMs) → ∃ s, d.msScript = some s ∧ s.length ≤ 3600 ∧
      ∃ n, countNonPushOnlyOPs ext s = .ok n ∧ n ≤ 201) := by
  unfold realize at h
  cases hb : branchOf iso.data <;> simp only [hb] at h
  case addr a =>
      split at h
      · exact Except.noConfusion h
      · simp only [Except.ok.injEq] at h
        subst h
        refine ⟨fun hk => ?_, fun hk => ?_⟩ <;> simp at hk
  case pk =>
      split at h
      · exact Except.noConfusion h
      · split at h
        · exact Except.noConfusion h
        · rename_i ke hke
          cases hkp : keyExpression2PubKey ext ke net false with
          | error er => rw [hkp] at h; exact Except.noConfusion h
          | ok pk =>
              rw [hkp] at h
              simp only [Except.map, Except.ok.injEq] at h
              subst h
              refine ⟨fun hk => ?_, fun hk => ?_⟩ <;> simp at hk
  case pkh =>
      split at h
      · exact Except.noConfusion h
      · split at h
        · exact Except.noConfusion h
        · rename_i ke hke
          cases hkp : keyExpression2PubKey ext ke net false with
          | error er => rw [hkp] at h; exact Except.noConfusion h
          | ok pk =>
              rw [hkp] at h
              simp only [Except.map, Except.ok.injEq] at h
              subst h
              refine ⟨fun hk => ?_, fun hk => ?_⟩ <;> simp at hk
  case shWpkh =>
      split at h
      · exact Except.noConfusion h
      · split at h
        · exact Except.noConfusion h
        · rename_i ke hke
          cases hkp : keyExpression2PubKey ext ke net true with
          | error er => rw [hkp] at h; exact Except.noConfusion h
          | ok pk =>
              rw [hkp] at h
              simp only [Except.map, Except.ok.injEq] at h
              subst h
              refine ⟨fun hk => ?_, fun hk => ?_⟩ <;> simp at hk
  case wpkh =>
      split at h
      · exact Except.noConfusion h
      · split at h
        · exact Except.noConfusion h
        · rename_i ke hke
          cases hkp : keyExpression2PubKey ext ke net true with
          | error er => rw [hkp] at h; exact Except.noConfusion h
          | ok pk =>
              rw [hkp] at h
              simp only [Except.map, Except.ok.injEq] at h
              subst h
              refine ⟨fun hk => ?_, fun hk => ?_⟩ <;> simp at hk
  case shWshMs ms =>
      split at h
      · exact Except.noConfusion h
      · split at h
        · exact Except.noConfusion h
        · rename_i script satAsm hsolve
          split at h
          · exact Except.noConfusion h
          · rename_i hlen
            split at h
            · exact Except.noConfusion h
            · rename_i n hops
              split at h
              · exact Except.noConfusion h
              · rename_i hn
                simp only [Except.ok.injEq] at h
                subst h
                refine ⟨fun hk => ?_, fun _ => ⟨script, rfl, by omega, n, hops, by omega⟩⟩
                simp at hk
  case shMs ms =>
      split at h
      · exact Except.noConfusion h
      · split at h
        · exact Except.noConfusion h
        · split at h
          · exact Except.noConfusion h
          · rename_i script satAsm hsolve
            split at h
            · exact Except.noConfusion h
            · rename_i hlen
              split at h
              · exact Except.noConfusion h
              · rename_i n hops
                split at h
                · exact Except.noConfusion h
                · rename_i hn
                  simp only [Except.ok.injEq] at h
                  subst h
                  refine ⟨fun _ => ⟨script, rfl, by omega, n, hops, by omega⟩, fun hk => ?_⟩
                  rcases hk with hk | hk <;> simp at hk
  case wshMs ms =>
      split at h
      · exact Except.noConfusion h
      · split at h
        · exact Except.noConfusion h
        · rename_i script satAsm hsolve
          split at h
          · exact Except.noConfusion h
          · rename_i hlen
            split at h
            · exact Except.noConfusion h
            · rename_i n hops
              split at h
              · exact Except.noConfusion h
              · rename_i hn
                simp only [Except.ok.injEq] at h
                subst h
                refine ⟨fun hk => ?_, fun _ => ⟨script, rfl, by omega, n, hops, by omega⟩⟩
                simp at hk
  case noMatch => exact Except.noConfusion h

/-- Claim C7: every successfully constructed descriptor satisfies the
resource limits (520 bytes for the `sh(ms)` redeem script, 3600 bytes for
`wsh(ms)`/`sh(wsh(ms))` witness scripts, 201 non-push opcodes in all
miniscript envelopes), and the constructor's miniscript branches fail with
the script-too-large / too-many-ops errors when a compiled script violates
them. -/
theorem resource_limits (ext : Externals) (e : String) (index : JSIndex)
    (checksumRequired allowMiniscriptInP2SH : Bool) (unknowns : List String) (network : Network)
    (d : Descriptor)
    (hok : construct ext e index checksumRequired allowMiniscriptInP2SH unknowns network = .ok d)
    (ext2 : Externals) (e2 iso2 : String) (unknowns2 : List String) (network2 : Network)
    (ms2 : String) (script2 : List Nat) (sat2 : String)
    (hb2 : branchOf iso2.data = .shMs ms2) (hms2 : ms2 ≠ "")
    (hsolve2 : solveMiniscript ext2 ms2 false unknowns2 network2 = .ok (script2, sat2))
    (hbig2 : 520 < script2.length)
    (ext3 : Externals) (e3 iso3 : String) (allow3 : Bool) (unknowns3 : List String)
    (network3 : Network) (ms3 : String) (script3 : List Nat) (sat3 : String) (n3 : Nat)
    (hb3 : branchOf iso3.data = .wshMs ms3) (hms3 : ms3 ≠ "")
    (hsolve3 : solveMiniscript ext3 ms3 true unknowns3 network3 = .ok (script3, sat3))
    (hsmall3 : script3.length ≤ 3600)
    (hops3 : countNonPushOnlyOPs ext3 script3 = .ok n3) (hbig3 : 201 < n3) :
    (d.kind = .shMs → ∃ s, d.msScript = some s ∧ s.length ≤ 520 ∧
      ∃ n, countNonPushOnlyOPs ext s = .ok n ∧ n ≤ 201)
    ∧ ((d.kind = .wshMs ∨ d.kind = .shWshMs) → ∃ s, d.msScript = some s ∧ s.length ≤ 3600 ∧
      ∃ n, countNonPushOnlyOPs ext s = .ok n ∧ n ≤ 201)
    ∧ realize ext2 e2 iso2 true unknowns2 network2 = .error (.p2shScriptTooLarge script2.length)
    ∧ realize ext3 e3 iso3 allow3 unknowns3 network3 = .error (.tooManyOps n3) := by
  obtain ⟨iso, hreal⟩ : ∃ iso, realize ext e iso allowMiniscriptInP2SH unknowns network
      = .ok d := by
    unfold construct at hok
    cases hi : isolate e checksumRequired index with
    | error er => rw [hi] at hok; exact Except.noConfusion hok
    | ok iso => rw [hi] at hok; exact ⟨iso, hok⟩
  have hlims := realize_ok_limits hreal
  refine ⟨hlims.1, hlims.2, ?_, ?_⟩
  · unfold realize
    simp only [hb2]
    rw [if_neg hms2, if_neg (by simp)]
    rw [hsolve2]
    simp [hbig2]
  · unfold realize
    simp only [hb3]
    rw [if_neg hms3]
    rw [hsolve3]
    have hno : ¬ 3600 < script3.length := by omega
    simp [hno, hops3, hbig3]

/-- An externals bundle whose asm assembler returns a 521-byte script. -/
def bigScriptExt : Externals := { demoExt with fromASM := fun _ => List.replicate 521 0 }

/-- An externals bundle whose decompiler reports 202 non-push opcodes. -/
def manyOpsExt : Externals :=
  { demoExt with decompile := fun _ => some (List.replicate 202 (ScriptElem.op 0x61)) }

theorem resource_limits_witness :
    ((Descriptor.mk .wshMs
        { address := some "wshAddr", output := some (34 :: [0, 1, 2]), witness := some [0, 1, 2] }
        (some "sats") (some [0, 1, 2])).kind = .shMs →
      ∃ s, (Descriptor.mk .wshMs
        { address := some "wshAddr", output := some (34 :: [0, 1, 2]), witness := some [0, 1, 2] }
        (some "sats") (some [0, 1, 2])).msScript = some s ∧ s.length ≤ 520 ∧
        ∃ n, countNonPushOnlyOPs demoExt s = .ok n ∧ n ≤ 201)
    ∧ (((Descriptor.mk .wshMs
        { address := some "wshAddr", output := some (34 :: [0, 1, 2]), witness := some [0, 1, 2] }
        (some "sats") (some [0, 1, 2])).kind = .wshMs ∨
        (Descriptor.mk .wshMs
        { address := some "wshAddr", output := some (34 :: [0, 1, 2]), witness := some [0, 1, 2] }
        (some "sats") (some [0, 1, 2])).kind = .shWshMs) →
      ∃ s, (Descriptor.mk .wshMs
        { address := some "wshAddr", output := some (34 :: [0, 1, 2]), witness := some [0, 1, 2] }
        (some "sats") (some [0, 1, 2])).msScript = some s ∧ s.length ≤ 3600 ∧
        ∃ n, countNonPushOnlyOPs demoExt s = .ok n ∧ n ≤ 201)
    ∧ realize bigScriptExt "sh(pk(0))" ("sh(pk(" ++ demoPubHex ++ "))") true [] .bitcoin
      = .error (.p2shScriptTooLarge (List.replicate 521 (0 : Nat)).length)
    ∧ realize manyOpsExt "wsh(x)" "wsh(x)" false [] .bitcoin = .error (.tooManyOps 202) :=
  resource_limits demoExt "wsh(0)" (.int 0) false false [] .bitcoin _ rfl
    bigScriptExt "sh(pk(0))" ("sh(pk(" ++ demoPubHex ++ "))") [] .bitcoin
    ("pk(" ++ demoPubHex ++ ")") (List.replicate 521 0) "sats" (by decide)
    (by decide) rfl (by decide)
    manyOpsExt "wsh(x)" "wsh(x)" false [] .bitcoin "x" [0, 1, 2] "sats" 202 (by decide)
    (by decide) rfl (by decide) rfl (by decide)

end Descriptors
